import Mathlib

/-!
Shallow embedding of the compact-JWT engine exposed through the WASM binding
layer (`e2e-tests/wasm/src/lib.rs`).  The binding layer itself is translated
from the source; the core engine (token codec, claims validation, algorithm
implementations, JWK conversion) is not shipped in the sources, so those parts
are modelled from the specification, as indicated by their doc comments.
-/

namespace JwtC

/-- Byte strings are modelled as lists of natural numbers. -/
abbrev Bytes := List Nat

instance {ε α : Type} [DecidableEq ε] [DecidableEq α] : DecidableEq (Except ε α)
  | .error e1, .error e2 => decidable_of_iff (e1 = e2) (by simp)
  | .ok v1, .ok v2 => decidable_of_iff (v1 = v2) (by simp)
  | .error _, .ok _ => .isFalse (by simp)
  | .ok _, .error _ => .isFalse (by simp)

/-- Sample token claims from the source: subject, name and an admin flag. -/
structure SampleClaims where
  subject : String
  name : String
  admin : Bool
  deriving DecidableEq

/-- Claims: caller-defined custom fields plus the reserved optional temporal
fields (expiration, not-before, issued-at), second-granularity timestamps
modelled as integers. -/
structure Claims (T : Type) where
  custom : T
  expiration : Option Int := none
  notBefore : Option Int := none
  issuedAt : Option Int := none
  deriving DecidableEq

/-- Time policy: injectable current time and clock-skew leeway, in seconds. -/
structure TimeOptions where
  leeway : Int
  now : Int
  deriving DecidableEq

/-- Modelled from the spec: the process-wide default time policy.  The clock
is injectable (the ambient clock reading is an explicit argument) and the
default leeway is a fixed nonnegative constant. -/
def TimeOptions.default (now : Int) : TimeOptions := ⟨60, now⟩

/-- Token header metadata; the algorithm name is added at serialization time
by the token assembler. -/
structure Header where
  keyId : Option String := none
  deriving DecidableEq

/-- Header::default() from the source: no metadata set. -/
def Header.default : Header := ⟨none⟩

/-- Modelled from the spec: structured (JSON-style) serialization of a string,
as a length-prefixed character-code list. -/
def encodeString (s : String) : Bytes := s.data.length :: s.data.map Char.toNat

/-- Reads exactly `n` bytes, returning them and the remainder. -/
def readBytes : Nat → Bytes → Option (Bytes × Bytes)
  | 0, l => some ([], l)
  | _ + 1, [] => none
  | n + 1, x :: xs =>
    match readBytes n xs with
    | some (a, r) => some (x :: a, r)
    | none => none

/-- Decodes a length-prefixed string, returning it and the remainder. -/
def decodeString : Bytes → Option (String × Bytes)
  | [] => none
  | n :: rest =>
    (readBytes n rest).map fun p => (String.mk (p.1.map Char.ofNat), p.2)

/-- Modelled from the spec: serialization of a boolean field. -/
def encodeBool (b : Bool) : Bytes := [if b then 1 else 0]

/-- Decodes a boolean field. -/
def decodeBool : Bytes → Option (Bool × Bytes)
  | 0 :: r => some (false, r)
  | 1 :: r => some (true, r)
  | _ => none

/-- Modelled from the spec: serialization of a signed second-granularity
timestamp (sign tag followed by magnitude). -/
def encodeInt (z : Int) : Bytes := if 0 ≤ z then [0, z.toNat] else [1, (-z).toNat]

/-- Decodes a signed timestamp. -/
def decodeInt : Bytes → Option (Int × Bytes)
  | 0 :: n :: r => some ((n : Int), r)
  | 1 :: n :: r => some (-(n : Int), r)
  | _ => none

/-- Serialization of an optional timestamp field. -/
def encodeOptInt : Option Int → Bytes
  | none => [0]
  | some z => 1 :: encodeInt z

/-- Decodes an optional timestamp field. -/
def decodeOptInt : Bytes → Option (Option Int × Bytes)
  | 0 :: r => some (none, r)
  | 1 :: r => (decodeInt r).map fun p => (some p.1, p.2)
  | _ => none

/-- Serialization of an optional string field. -/
def encodeOptStr : Option String → Bytes
  | none => [0]
  | some s => 1 :: encodeString s

/-- Decodes an optional string field. -/
def decodeOptStr : Bytes → Option (Option String × Bytes)
  | 0 :: r => some (none, r)
  | 1 :: r => (decodeString r).map fun p => (some p.1, p.2)
  | _ => none

/-- Modelled from the spec: serialization of the custom claim fields of
`SampleClaims` (the payload JSON object of the source wrapper). -/
def serializeSample (c : SampleClaims) : Bytes :=
  encodeString c.subject ++ (encodeString c.name ++ encodeBool c.admin)

/-- Decodes the custom claim fields, returning them and the remainder. -/
def decodeSample (l : Bytes) : Option (SampleClaims × Bytes) :=
  (decodeString l).bind fun sub =>
    (decodeString sub.2).bind fun nm =>
      (decodeBool nm.2).bind fun ad =>
        some (⟨sub.1, nm.1, ad.1⟩, ad.2)

/-- Modelled from the spec: serialization of a full claims object — custom
fields plus the reserved temporal fields. -/
def serializeClaims (c : Claims SampleClaims) : Bytes :=
  serializeSample c.custom ++
    (encodeOptInt c.expiration ++ (encodeOptInt c.notBefore ++ encodeOptInt c.issuedAt))

/-- Decodes a full claims object from the payload segment bytes. -/
def decodeClaims (l : Bytes) : Option (Claims SampleClaims) :=
  (decodeSample l).bind fun c =>
    (decodeOptInt c.2).bind fun e =>
      (decodeOptInt e.2).bind fun nb =>
        (decodeOptInt nb.2).bind fun ia =>
          if ia.2 = [] then some ⟨c.1, e.1, nb.1, ia.1⟩ else none

/-- Modelled from the spec: serialization of the header together with the
algorithm name field that the assembler inserts. -/
def serializeHeader (alg : String) (h : Header) : Bytes :=
  encodeString alg ++ encodeOptStr h.keyId

/-- Decodes a header segment into the algorithm name and the header fields. -/
def decodeHeader (l : Bytes) : Option (String × Header) :=
  (decodeString l).bind fun a =>
    (decodeOptStr a.2).bind fun k =>
      if k.2 = [] then some (a.1, ⟨k.1⟩) else none

/-- Modelled from the spec: the separator-free segment encoding of the compact
wire format (standing in for base64url: injective over bytes and never
producing the separator character). -/
def encSeg (l : Bytes) : Bytes := l.map (· + 47)

/-- Strict decoder for one compact-format segment. -/
def decSeg : Bytes → Option Bytes
  | [] => some []
  | x :: xs =>
    if 47 ≤ x then
      match decSeg xs with
      | some l => some ((x - 47) :: l)
      | none => none
    else none

/-- Splits a byte string on the separator byte 46 (the dot). -/
def splitSep : Bytes → List Bytes
  | [] => [[]]
  | x :: xs =>
    if x = 46 then [] :: splitSep xs
    else
      match splitSep xs with
      | [] => [[x]]
      | y :: ys => (x :: y) :: ys

/-- Concatenates the three encoded segments with the separator into the
compact wire form. -/
def assemble (h p s : Bytes) : Bytes := encSeg h ++ 46 :: (encSeg p ++ 46 :: encSeg s)

/-- Typed error taxonomy of the core engine. -/
inductive TokenError
  | malformedToken
  | algorithmMismatch
  | signatureMismatch
  | tokenExpired
  | tokenNotYetValid
  | serializationError
  deriving DecidableEq

/-- Key-conversion failures of the JWK adapter. -/
inductive JwkError
  | unexpectedKeyType
  | missingPrivateKey
  deriving DecidableEq

/-- Errors surfaced at the binding layer (each rendered to a host error). -/
inductive JsError
  | token (e : TokenError)
  | jwk (e : JwkError)
  | invalidAlgorithm
  | pemError
  | keyDecodeError
  deriving DecidableEq

/-- Outcome of an exported entry point: a value, a typed error converted to a
host error, or a reached panic site (a non-returning failure). -/
inductive JsOutcome (α : Type)
  | ok (val : α)
  | err (e : JsError)
  | panicked (msg : String)
  deriving DecidableEq

/-- True when the outcome is a typed error. -/
def JsOutcome.isErr {α : Type} : JsOutcome α → Bool
  | .err _ => true
  | _ => false

/-- True when the outcome reached a panic site. -/
def JsOutcome.isPanic {α : Type} : JsOutcome α → Bool
  | .panicked _ => true
  | _ => false

/-- Structural parse result of a compact token: decoded segments plus the
untrusted algorithm name read from the header. -/
structure UntrustedToken where
  headerBytes : Bytes
  algName : String
  header : Header
  payloadBytes : Bytes
  signature : Bytes
  deriving DecidableEq

/-- Modelled from the spec: the untrusted token parser.  Splits on the two
separators into exactly three non-empty segments, decodes them, and decodes
the header to learn the claimed algorithm name; any structural failure is
`malformedToken`. -/
def UntrustedToken.new (s : Bytes) : Except TokenError UntrustedToken :=
  match splitSep s with
  | [h, p, g] =>
    if h = [] ∨ p = [] ∨ g = [] then .error .malformedToken
    else
      match decSeg h, decSeg p, decSeg g with
      | some hb, some pb, some gb =>
        match decodeHeader hb with
        | some (a, hd) => .ok ⟨hb, a, hd, pb, gb⟩
        | none => .error .malformedToken
      | _, _, _ => .error .malformedToken
  | _ => .error .malformedToken

/-- Trusted token: produced only by successful verification. -/
structure Token where
  header : Header
  claims : Claims SampleClaims
  deriving DecidableEq

/-- Algorithm abstraction: canonical name, signature production from a signing
key, and the expected signature derived from a verifying key (verification
compares the token signature against it).  Modelled from the spec for the
concrete algorithm families. -/
structure AlgSpec (SK VK : Type) where
  name : String
  sign : SK → Bytes → Bytes
  expected : VK → Bytes → Bytes

/-- The three HMAC strengths of the source wrapper. -/
inductive HsAlg
  | hs256
  | hs384
  | hs512
  deriving DecidableEq

/-- Canonical algorithm names of the HMAC family. -/
def HsAlg.name : HsAlg → String
  | .hs256 => "HS256"
  | .hs384 => "HS384"
  | .hs512 => "HS512"

/-- Numeric tag distinguishing the HMAC strengths in the modelled digest. -/
def HsAlg.tag : HsAlg → Nat
  | .hs256 => 0
  | .hs384 => 1
  | .hs512 => 2

/-- Modelled from the spec: the keyed hash (HMAC) over the header and payload
bytes.  The concrete SHA-2 compression is not part of the spec; it is modelled
as an injective, strength-tagged keyed digest, which is deterministic and
never empty. -/
def hmacTag (a : HsAlg) (key msg : Bytes) : Bytes :=
  a.tag :: key.length :: (key ++ msg)

/-- HMAC algorithm instances: the symmetric key is raw bytes of any length,
and signing and verification use the same key. -/
def hsAlg (a : HsAlg) : AlgSpec Bytes Bytes :=
  ⟨a.name, hmacTag a, hmacTag a⟩

/-- The six RSA algorithm variants. -/
inductive RsaAlg
  | rs256
  | rs384
  | rs512
  | ps256
  | ps384
  | ps512
  deriving DecidableEq

/-- Canonical algorithm names of the RSA family. -/
def RsaAlg.name : RsaAlg → String
  | .rs256 => "RS256"
  | .rs384 => "RS384"
  | .rs512 => "RS512"
  | .ps256 => "PS256"
  | .ps384 => "PS384"
  | .ps512 => "PS512"

/-- Numeric tag distinguishing the RSA variants in the modelled signature. -/
def RsaAlg.tag : RsaAlg → Nat
  | .rs256 => 0
  | .rs384 => 1
  | .rs512 => 2
  | .ps256 => 3
  | .ps384 => 4
  | .ps512 => 5

/-- RSA public (verifying) key, decoded from a PKCS#8-style container. -/
structure RSAPublicKey where
  bytes : Bytes
  deriving DecidableEq

/-- RSA private (signing) key; it determines the corresponding public key. -/
structure RSAPrivateKey where
  pub : RSAPublicKey
  deriving DecidableEq

/-- Modelled from the spec: the RSA signature value over the message under a
given public key, as an abstract deterministic tag. -/
def rsaTag (a : RsaAlg) (k : RSAPublicKey) (msg : Bytes) : Bytes :=
  a.tag :: k.bytes.length :: (k.bytes ++ msg)

/-- RSA algorithm instances: signing uses the private key, verification
recognises exactly the signature determined by the public key. -/
def rsaAlg (a : RsaAlg) : AlgSpec RSAPrivateKey RSAPublicKey :=
  ⟨a.name, fun k msg => rsaTag a k.pub msg, fun k msg => rsaTag a k msg⟩

/-- Modelled from the spec and the source call sites: `Rsa::with_name` selects
an RSA variant by its canonical name.  The source calls it with no error path,
and the spec forbids falling back to a default, so an unsupported name yields
no algorithm (the call site then cannot return a value). -/
def Rsa.withName (s : String) : Option RsaAlg :=
  if s = "RS256" then some .rs256
  else if s = "RS384" then some .rs384
  else if s = "RS512" then some .rs512
  else if s = "PS256" then some .ps256
  else if s = "PS384" then some .ps384
  else if s = "PS512" then some .ps512
  else none

/-- Ed25519 verifying key (curve point bytes). -/
structure EdVerifyingKey where
  x : Bytes
  deriving DecidableEq

/-- Ed25519 signing key: private scalar plus the derived public point. -/
structure EdSigningKey where
  d : Bytes
  x : Bytes
  deriving DecidableEq

/-- Modelled from the spec: the Ed25519 signature over a message, determined
by the public point, as an abstract deterministic tag. -/
def edTag (x msg : Bytes) : Bytes := 9 :: x.length :: (x ++ msg)

/-- Ed25519 algorithm instance. -/
def edAlg : AlgSpec EdSigningKey EdVerifyingKey :=
  ⟨"EdDSA", fun k msg => edTag k.x msg, fun k msg => edTag k.x msg⟩

/-- External JWK representation: a tagged union over the key families. -/
inductive JsonWebKey
  | symmetric (secret : Bytes)
  | rsa (modulus publicExponent : Bytes) (privateParts : Option Bytes)
  | okp (x : Bytes) (d : Option Bytes)
  deriving DecidableEq

/-- Modelled from the spec: conversion of a JWK into the raw-byte HMAC key
(used both for signing and verifying).  Only the symmetric family converts;
the bytes are passed through unchanged, never truncated or reinterpreted. -/
def hmacKeyFromJwk : JsonWebKey → Except JwkError Bytes
  | .symmetric secret => .ok secret
  | _ => .error .unexpectedKeyType

/-- Modelled from the spec: conversion of a JWK into an Ed25519 verifying
key; only the octet-key-pair family converts. -/
def edVerifyingKeyFromJwk : JsonWebKey → Except JwkError EdVerifyingKey
  | .okp x _ => .ok ⟨x⟩
  | _ => .error .unexpectedKeyType

/-- Modelled from the spec: conversion of a JWK into an Ed25519 signing key;
requires the octet-key-pair family with the private bytes present. -/
def edSigningKeyFromJwk : JsonWebKey → Except JwkError EdSigningKey
  | .okp x (some d) => .ok ⟨d, x⟩
  | .okp _ none => .error .missingPrivateKey
  | _ => .error .unexpectedKeyType

/-- Claims::new from the source: custom fields, no temporal fields. -/
def Claims.new {T : Type} (custom : T) : Claims T := ⟨custom, none, none, none⟩

/-- Modelled from the spec: `set_duration(policy, duration)` fills the
expiration field with `policy.now() + duration`. -/
def Claims.setDuration {T : Type} (c : Claims T) (t : TimeOptions) (d : Int) : Claims T :=
  { c with expiration := some (t.now + d) }

/-- Modelled from the spec: expiration validation.  When expiration is
present, the current time inclusive of leeway must not exceed it, else
`tokenExpired`; the claims are passed through unchanged on success. -/
def validateExpiration {T : Type} (t : TimeOptions) (c : Claims T) :
    Except TokenError (Claims T) :=
  match c.expiration with
  | none => .ok c
  | some e => if t.now ≤ e + t.leeway then .ok c else .error .tokenExpired

/-- Modelled from the spec: maturity (not-before) validation.  When not-before
is present, the current time inclusive of leeway must reach it, else
`tokenNotYetValid`. -/
def validateMaturity {T : Type} (t : TimeOptions) (c : Claims T) :
    Except TokenError (Claims T) :=
  match c.notBefore with
  | none => .ok c
  | some nbf => if nbf ≤ t.now + t.leeway then .ok c else .error .tokenNotYetValid

/-- Modelled from the spec: integrity validation of a parsed token.  The
claimed name must match the caller-chosen algorithm, the signature must equal
the one determined by the verifying key over the header and payload bytes,
and only then is the payload deserialized into typed claims. -/
def validateIntegrity {SK VK : Type} (A : AlgSpec SK VK) (tok : UntrustedToken)
    (key : VK) : Except TokenError Token :=
  if tok.algName = A.name then
    if tok.signature = A.expected key (tok.headerBytes ++ tok.payloadBytes) then
      match decodeClaims tok.payloadBytes with
      | some c => .ok ⟨tok.header, c⟩
      | none => .error .serializationError
    else .error .signatureMismatch
  else .error .algorithmMismatch

/-- Modelled from the spec: the token assembler.  Serializes header and
claims, signs the two encoded segments, and concatenates the three segments
with the separator into the compact string. -/
def createToken {SK VK : Type} (A : AlgSpec SK VK) (h : Header)
    (c : Claims SampleClaims) (key : SK) : Bytes :=
  let hb := serializeHeader A.name h
  let pb := serializeClaims c
  assemble hb pb (A.sign key (hb ++ pb))

/-- extract_claims from the source: validates only expiration against the
default time policy and projects out the custom fields. -/
def extractClaims (t : Token) (now : Int) : Except TokenError SampleClaims :=
  (validateExpiration (TimeOptions.default now) t.claims).map (·.custom)

/-- Modelled from the spec: host marshalling of the plain claims record into a
host value.  Serializing a record of two strings and a boolean cannot fail. -/
def fromSerde (c : SampleClaims) : Option SampleClaims := some c

/-- do_verify_token from the source: key conversion, integrity validation,
expiration validation, then marshalling (whose failure would be a panic). -/
def doVerifyToken {SK VK : Type} (A : AlgSpec SK VK)
    (keyFrom : JsonWebKey → Except JwkError VK) (tok : UntrustedToken)
    (jwk : JsonWebKey) (now : Int) : JsOutcome SampleClaims :=
  match keyFrom jwk with
  | .error e => .err (.jwk e)
  | .ok key =>
    match validateIntegrity A tok key with
    | .error e => .err (.token e)
    | .ok t =>
      match extractClaims t now with
      | .error e => .err (.token e)
      | .ok c =>
        match fromSerde c with
        | some v => .ok v
        | none => .panicked "Cannot serialize claims"

/-- do_create_token from the source: key conversion, then a one-hour duration
is set on the fresh claims against the default policy, and the token is
assembled and signed. -/
def doCreateToken {SK VK : Type} (A : AlgSpec SK VK)
    (keyFrom : JsonWebKey → Except JwkError SK) (claims : SampleClaims)
    (jwk : JsonWebKey) (now : Int) : JsOutcome Bytes :=
  match keyFrom jwk with
  | .error e => .err (.jwk e)
  | .ok key =>
    .ok (createToken A Header.default
      ((Claims.new claims).setDuration (TimeOptions.default now) 3600) key)

/-- verify_hash_token from the source: parse, then dispatch on the claimed
algorithm name over the three HMAC strengths only. -/
def verifyHashToken (tokenStr : Bytes) (jwk : JsonWebKey) (now : Int) :
    JsOutcome SampleClaims :=
  match UntrustedToken.new tokenStr with
  | .error e => .err (.token e)
  | .ok tok =>
    if tok.algName = "HS256" then doVerifyToken (hsAlg .hs256) hmacKeyFromJwk tok jwk now
    else if tok.algName = "HS384" then doVerifyToken (hsAlg .hs384) hmacKeyFromJwk tok jwk now
    else if tok.algName = "HS512" then doVerifyToken (hsAlg .hs512) hmacKeyFromJwk tok jwk now
    else .err .invalidAlgorithm

/-- create_hash_token from the source: dispatch on the requested algorithm
name over the three HMAC strengths only. -/
def createHashToken (claims : SampleClaims) (jwk : JsonWebKey) (alg : String)
    (now : Int) : JsOutcome Bytes :=
  if alg = "HS256" then doCreateToken (hsAlg .hs256) hmacKeyFromJwk claims jwk now
  else if alg = "HS384" then doCreateToken (hsAlg .hs384) hmacKeyFromJwk claims jwk now
  else if alg = "HS512" then doCreateToken (hsAlg .hs512) hmacKeyFromJwk claims jwk now
  else .err .invalidAlgorithm

/-- verify_rsa_token from the source: PEM decode and PKCS#8 key decode (the
out-of-scope collaborators are taken as explicit function arguments), parse,
then `Rsa::with_name` on the claimed name — which cannot return a value for a
non-RSA name, modelled as a panic outcome — and integrity plus expiration
validation. -/
def verifyRsaToken (pemParse : String → Option Bytes)
    (fromPkcs8 : Bytes → Option RSAPublicKey) (publicKeyPem : String)
    (tokenStr : Bytes) (now : Int) : JsOutcome SampleClaims :=
  match pemParse publicKeyPem with
  | none => .err .pemError
  | some contents =>
    match fromPkcs8 contents with
    | none => .err .keyDecodeError
    | some key =>
      match UntrustedToken.new tokenStr with
      | .error e => .err (.token e)
      | .ok tok =>
        match Rsa.withName tok.algName with
        | none => .panicked "Invalid algorithm name"
        | some a =>
          match validateIntegrity (rsaAlg a) tok key with
          | .error e => .err (.token e)
          | .ok t =>
            match extractClaims t now with
            | .error e => .err (.token e)
            | .ok c =>
              match fromSerde c with
              | some v => .ok v
              | none => .panicked "Cannot serialize claims"

/-- create_rsa_token from the source: PEM and PKCS#8 decoding of the private
key (collaborators as explicit arguments), one-hour duration on the fresh
claims, then `Rsa::with_name` on the caller-supplied name — a panic outcome
for a non-RSA name — and assembly. -/
def createRsaToken (pemParse : String → Option Bytes)
    (fromPkcs8 : Bytes → Option RSAPrivateKey) (claims : SampleClaims)
    (privateKeyPem : String) (alg : String) (now : Int) : JsOutcome Bytes :=
  match pemParse privateKeyPem with
  | none => .err .pemError
  | some contents =>
    match fromPkcs8 contents with
    | none => .err .keyDecodeError
    | some key =>
      match Rsa.withName alg with
      | none => .panicked "Invalid algorithm name"
      | some a =>
        .ok (createToken (rsaAlg a) Header.default
          ((Claims.new claims).setDuration (TimeOptions.default now) 3600) key)

/-- verify_ed_token from the source. -/
def verifyEdToken (tokenStr : Bytes) (jwk : JsonWebKey) (now : Int) :
    JsOutcome SampleClaims :=
  match UntrustedToken.new tokenStr with
  | .error e => .err (.token e)
  | .ok tok => doVerifyToken edAlg edVerifyingKeyFromJwk tok jwk now

/-- create_ed_token from the source. -/
def createEdToken (claims : SampleClaims) (jwk : JsonWebKey) (now : Int) :
    JsOutcome Bytes :=
  doCreateToken edAlg edSigningKeyFromJwk claims jwk now

/-- Observer: the untrusted algorithm name parsed from a compact string. -/
def claimedAlg (s : Bytes) : Option String :=
  match UntrustedToken.new s with
  | .ok t => some t.algName
  | .error _ => none

/-- Observer: the claims carried by the payload segment of a compact string. -/
def payloadClaims (s : Bytes) : Option (Claims SampleClaims) :=
  match UntrustedToken.new s with
  | .ok t => decodeClaims t.payloadBytes
  | .error _ => none

theorem readBytes_append (l r : Bytes) : readBytes l.length (l ++ r) = some (l, r) := by
  induction l with
  | nil => rfl
  | cons x xs ih => simp [readBytes, ih]

theorem decodeString_encode (s : String) (r : Bytes) :
    decodeString (encodeString s ++ r) = some (s, r) := by
  have hid : ∀ l : List Char, List.map (Char.ofNat ∘ Char.toNat) l = l := by
    intro l
    induction l with
    | nil => rfl
    | cons c cs ih => simp [ih, Char.ofNat_toNat]
  obtain ⟨d⟩ := s
  have h := readBytes_append (d.map Char.toNat) r
  simp only [encodeString, List.cons_append, decodeString]
  rw [show d.length = (List.map Char.toNat d).length by simp, h]
  simp [List.map_map, hid]

theorem decodeBool_encode (b : Bool) (r : Bytes) :
    decodeBool (encodeBool b ++ r) = some (b, r) := by
  cases b <;> rfl

theorem decodeInt_encode (z : Int) (r : Bytes) :
    decodeInt (encodeInt z ++ r) = some (z, r) := by
  unfold encodeInt decodeInt
  by_cases h : 0 ≤ z
  · simp [h, Int.toNat_of_nonneg h]
  · have h1 : ((-z).toNat : Int) = -z := Int.toNat_of_nonneg (by omega)
    simp [h, h1]

theorem decodeOptInt_encode (z : Option Int) (r : Bytes) :
    decodeOptInt (encodeOptInt z ++ r) = some (z, r) := by
  cases z with
  | none => rfl
  | some z => simp [encodeOptInt, decodeOptInt, decodeInt_encode]

theorem decodeOptStr_encode (s : Option String) (r : Bytes) :
    decodeOptStr (encodeOptStr s ++ r) = some (s, r) := by
  cases s with
  | none => rfl
  | some s => simp [encodeOptStr, decodeOptStr, decodeString_encode]

theorem decodeSample_encode (c : SampleClaims) (r : Bytes) :
    decodeSample (serializeSample c ++ r) = some (c, r) := by
  unfold serializeSample decodeSample
  simp [List.append_assoc, decodeString_encode, decodeBool_encode]

theorem decodeClaims_encode (c : Claims SampleClaims) :
    decodeClaims (serializeClaims c) = some c := by
  have h := decodeOptInt_encode c.issuedAt []
  rw [List.append_nil] at h
  unfold serializeClaims decodeClaims
  simp [List.append_assoc, decodeSample_encode, decodeOptInt_encode, h]

theorem decodeHeader_encode (a : String) (h : Header) :
    decodeHeader (serializeHeader a h) = some (a, h) := by
  have hk := decodeOptStr_encode h.keyId []
  rw [List.append_nil] at hk
  unfold serializeHeader decodeHeader
  simp [decodeString_encode, hk]

theorem encSeg_sepfree (l : Bytes) : ∀ x ∈ encSeg l, x ≠ 46 := by
  intro x hx
  simp only [encSeg, List.mem_map] at hx
  rcases hx with ⟨a, _, rfl⟩
  omega

theorem decSeg_encSeg (l : Bytes) : decSeg (encSeg l) = some l := by
  induction l with
  | nil => rfl
  | cons x xs ih =>
    have h47 : 47 ≤ x + 47 := by omega
    have hsub : x + 47 - 47 = x := by omega
    simp only [encSeg, List.map_cons] at ih ⊢
    simp [decSeg, h47, hsub, ih]

theorem splitSep_sepfree (a : Bytes) (h : ∀ x ∈ a, x ≠ 46) : splitSep a = [a] := by
  induction a with
  | nil => rfl
  | cons x xs ih =>
    have hx : x ≠ 46 := h x (by simp)
    have ihh : splitSep xs = [xs] := ih (fun y hy => h y (by simp [hy]))
    simp [splitSep, hx, ihh]

theorem splitSep_append (a b : Bytes) (h : ∀ x ∈ a, x ≠ 46) :
    splitSep (a ++ 46 :: b) = a :: splitSep b := by
  induction a with
  | nil => simp [splitSep]
  | cons x xs ih =>
    have hx : x ≠ 46 := h x (by simp)
    have ihh := ih (fun y hy => h y (by simp [hy]))
    simp [splitSep, hx, ihh]

theorem parse_assemble (hb pb sg : Bytes) (a : String) (hd : Header)
    (h1 : hb ≠ []) (h2 : pb ≠ []) (h3 : sg ≠ [])
    (hh : decodeHeader hb = some (a, hd)) :
    UntrustedToken.new (assemble hb pb sg) = .ok ⟨hb, a, hd, pb, sg⟩ := by
  have e1 : encSeg hb ≠ [] := by simpa [encSeg] using h1
  have e2 : encSeg pb ≠ [] := by simpa [encSeg] using h2
  have e3 : encSeg sg ≠ [] := by simpa [encSeg] using h3
  unfold assemble UntrustedToken.new
  rw [splitSep_append _ _ (encSeg_sepfree hb), splitSep_append _ _ (encSeg_sepfree pb),
    splitSep_sepfree _ (encSeg_sepfree sg)]
  simp [decSeg_encSeg, hh, e1, e2, e3]

theorem serializeHeader_ne_nil (a : String) (h : Header) : serializeHeader a h ≠ [] := by
  simp [serializeHeader, encodeString]

theorem serializeClaims_ne_nil (c : Claims SampleClaims) : serializeClaims c ≠ [] := by
  simp [serializeClaims, serializeSample, encodeString]

theorem hmacTag_ne_nil (a : HsAlg) (k m : Bytes) : hmacTag a k m ≠ [] := by
  simp [hmacTag]

theorem parse_createToken {SK VK : Type} (A : AlgSpec SK VK) (hd : Header)
    (c : Claims SampleClaims) (key : SK)
    (hs : A.sign key (serializeHeader A.name hd ++ serializeClaims c) ≠ []) :
    UntrustedToken.new (createToken A hd c key) =
      .ok ⟨serializeHeader A.name hd, A.name, hd, serializeClaims c,
        A.sign key (serializeHeader A.name hd ++ serializeClaims c)⟩ :=
  parse_assemble _ _ _ _ _ (serializeHeader_ne_nil _ _) (serializeClaims_ne_nil _) hs
    (decodeHeader_encode _ _)

theorem validateIntegrity_self {SK VK : Type} (A : AlgSpec SK VK) (hd : Header)
    (c : Claims SampleClaims) (key : SK) (vk : VK)
    (hkey : A.expected vk (serializeHeader A.name hd ++ serializeClaims c)
      = A.sign key (serializeHeader A.name hd ++ serializeClaims c)) :
    validateIntegrity A ⟨serializeHeader A.name hd, A.name, hd, serializeClaims c,
      A.sign key (serializeHeader A.name hd ++ serializeClaims c)⟩ vk = .ok ⟨hd, c⟩ := by
  unfold validateIntegrity
  simp [hkey, decodeClaims_encode]

theorem payloadClaims_createToken {SK VK : Type} (A : AlgSpec SK VK) (hd : Header)
    (c : Claims SampleClaims) (key : SK)
    (hs : A.sign key (serializeHeader A.name hd ++ serializeClaims c) ≠ []) :
    payloadClaims (createToken A hd c key) = some c := by
  have hp := parse_createToken A hd c key hs
  simp [payloadClaims, hp, decodeClaims_encode]

theorem verifyHash_createToken (a : HsAlg) (c : Claims SampleClaims) (secret : Bytes)
    (now : Int)
    (hexp : validateExpiration (TimeOptions.default now) c = .ok c) :
    verifyHashToken (createToken (hsAlg a) Header.default c secret)
      (.symmetric secret) now = .ok c.custom := by
  have hp := parse_createToken (hsAlg a) Header.default c secret (hmacTag_ne_nil a secret _)
  have hv := validateIntegrity_self (hsAlg a) Header.default c secret secret rfl
  unfold verifyHashToken
  rw [hp]
  cases a <;>
    simp only [hsAlg, HsAlg.name] at hv ⊢ <;>
    simp [doVerifyToken, hmacKeyFromJwk, hv, extractClaims, hexp, fromSerde, Except.map]

theorem hash_create_verify (a : HsAlg) (c : SampleClaims) (secret : Bytes)
    (now now' : Int) (htime : now' ≤ now + 3600) :
    verifyHashToken (createToken (hsAlg a) Header.default
        ((Claims.new c).setDuration (TimeOptions.default now) 3600) secret)
      (.symmetric secret) now' = .ok c ∧
    payloadClaims (createToken (hsAlg a) Header.default
        ((Claims.new c).setDuration (TimeOptions.default now) 3600) secret)
      = some ⟨c, some (now + 3600), none, none⟩ := by
  have hcl : (Claims.new c).setDuration (TimeOptions.default now) 3600
      = ⟨c, some (now + 3600), none, none⟩ := rfl
  have hexp : validateExpiration (TimeOptions.default now')
      ((Claims.new c).setDuration (TimeOptions.default now) 3600)
      = .ok ((Claims.new c).setDuration (TimeOptions.default now) 3600) := by
    rw [hcl]
    unfold validateExpiration TimeOptions.default
    simp only []
    rw [if_pos (by omega)]
  refine ⟨verifyHash_createToken a _ secret now' hexp, ?_⟩
  rw [payloadClaims_createToken (hsAlg a) Header.default _ secret (hmacTag_ne_nil a secret _),
    hcl]

theorem rsaTag_ne_nil (a : RsaAlg) (k : RSAPublicKey) (m : Bytes) : rsaTag a k m ≠ [] := by
  simp [rsaTag]

theorem edTag_ne_nil (x m : Bytes) : edTag x m ≠ [] := by
  simp [edTag]

theorem validateExpiration_some {T : Type} (t : TimeOptions) (cu : T) (e : Int)
    (nb ia : Option Int) :
    validateExpiration t ⟨cu, some e, nb, ia⟩ =
      if t.now ≤ e + t.leeway then .ok ⟨cu, some e, nb, ia⟩ else .error .tokenExpired := rfl

theorem validateMaturity_some {T : Type} (t : TimeOptions) (cu : T) (nbf : Int)
    (e ia : Option Int) :
    validateMaturity t ⟨cu, e, some nbf, ia⟩ =
      if nbf ≤ t.now + t.leeway then .ok ⟨cu, e, some nbf, ia⟩
      else .error .tokenNotYetValid := rfl

theorem set_ne (l : Bytes) : ∀ (i b : Nat) (hi : i < l.length),
    b ≠ l.get ⟨i, hi⟩ → l.set i b ≠ l := by
  induction l with
  | nil =>
    intro i b hi
    exact absurd hi (by simp)
  | cons x xs ih =>
    intro i b hi hne
    cases i with
    | zero =>
      simp only [List.set, ne_eq, List.cons.injEq, not_and]
      intro hb
      exact absurd hb hne
    | succ j =>
      intro h
      simp only [List.set] at h
      injection h with h1 h2
      exact ih j b (Nat.lt_of_succ_lt_succ hi) hne h2

theorem validateIntegrity_mismatch {SK VK : Type} (A : AlgSpec SK VK)
    (tok : UntrustedToken) (key : VK) (hname : tok.algName = A.name)
    (hne : tok.signature ≠ A.expected key (tok.headerBytes ++ tok.payloadBytes)) :
    validateIntegrity A tok key = .error .signatureMismatch := by
  unfold validateIntegrity
  rw [if_pos hname, if_neg hne]

theorem doVerifyToken_no_panic {SK VK : Type} (A : AlgSpec SK VK)
    (kf : JsonWebKey → Except JwkError VK) (tok : UntrustedToken)
    (jwk : JsonWebKey) (now : Int) :
    (doVerifyToken A kf tok jwk now).isPanic = false := by
  unfold doVerifyToken
  rcases hk : kf jwk with e | key
  · simp [hk, JsOutcome.isPanic]
  · rcases hv : validateIntegrity A tok key with e | t
    · simp [hk, hv, JsOutcome.isPanic]
    · rcases hx : extractClaims t now with e | c
      · simp [hk, hv, hx, JsOutcome.isPanic]
      · simp [hk, hv, hx, fromSerde, JsOutcome.isPanic]

theorem doCreateToken_no_panic {SK VK : Type} (A : AlgSpec SK VK)
    (kf : JsonWebKey → Except JwkError SK) (cl : SampleClaims)
    (jwk : JsonWebKey) (now : Int) :
    (doCreateToken A kf cl jwk now).isPanic = false := by
  unfold doCreateToken
  rcases hk : kf jwk with e | key
  · simp [hk, JsOutcome.isPanic]
  · simp [hk, JsOutcome.isPanic]

theorem claimedAlg_ok (s : Bytes) (tok : UntrustedToken)
    (h : UntrustedToken.new s = .ok tok) : claimedAlg s = some tok.algName := by
  simp [claimedAlg, h]

theorem doVerifyToken_ok {SK VK : Type} (A : AlgSpec SK VK)
    (kf : JsonWebKey → Except JwkError VK) (tok : UntrustedToken)
    (jwk : JsonWebKey) (now : Int) (c : SampleClaims)
    (h : doVerifyToken A kf tok jwk now = .ok c) :
    ∃ vk t, kf jwk = .ok vk ∧ validateIntegrity A tok vk = .ok t ∧
      extractClaims t now = .ok c := by
  rcases hk : kf jwk with je | vk0
  · simp [doVerifyToken, hk] at h
  rcases hv : validateIntegrity A tok vk0 with e | t0
  · simp [doVerifyToken, hk, hv] at h
  rcases hx : extractClaims t0 now with e | c0
  · simp [doVerifyToken, hk, hv, hx] at h
  · simp [doVerifyToken, hk, hv, hx, fromSerde] at h
    subst h
    exact ⟨vk0, t0, rfl, hv, hx⟩

theorem TimeOptions.mk_now (l n : Int) : (⟨l, n⟩ : TimeOptions).now = n := rfl

theorem TimeOptions.mk_leeway (l n : Int) : (⟨l, n⟩ : TimeOptions).leeway = l := rfl

/-- C5: Expiration boundary — with no leeway, claims whose expiration equals
the current time of the policy validate successfully (pass-through), claims whose
expiration is current time minus one second fail with `tokenExpired`, and with
leeway L validation succeeds for every current time up to expiration + L. -/
theorem c5_expiration_boundary (c : SampleClaims) (now L now2 e : Int)
    (hL : 0 ≤ L) (hle : now2 ≤ e + L) :
    validateExpiration ⟨0, now⟩ ⟨c, some now, none, none⟩
      = .ok ⟨c, some now, none, none⟩ ∧
    validateExpiration ⟨0, now⟩ ⟨c, some (now - 1), none, none⟩
      = .error .tokenExpired ∧
    validateExpiration ⟨L, now2⟩ ⟨c, some e, none, none⟩
      = .ok ⟨c, some e, none, none⟩ := by
  refine ⟨?_, ?_, ?_⟩
  · rw [validateExpiration_some, TimeOptions.mk_now, TimeOptions.mk_leeway,
      if_pos (by omega)]
  · rw [validateExpiration_some, TimeOptions.mk_now, TimeOptions.mk_leeway,
      if_neg (by omega)]
  · rw [validateExpiration_some, TimeOptions.mk_now, TimeOptions.mk_leeway,
      if_pos (by omega)]

/-- Witness for C5 at a concrete instant and leeway. -/
theorem c5_expiration_boundary_witness :
    validateExpiration ⟨0, 5⟩
        (⟨⟨"a", "b", false⟩, some 5, none, none⟩ : Claims SampleClaims)
      = .ok ⟨⟨"a", "b", false⟩, some 5, none, none⟩ ∧
    validateExpiration ⟨0, 5⟩
        (⟨⟨"a", "b", false⟩, some (5 - 1), none, none⟩ : Claims SampleClaims)
      = .error .tokenExpired ∧
    validateExpiration ⟨2, 4⟩
        (⟨⟨"a", "b", false⟩, some 3, none, none⟩ : Claims SampleClaims)
      = .ok ⟨⟨"a", "b", false⟩, some 3, none, none⟩ :=
  c5_expiration_boundary ⟨"a", "b", false⟩ 5 2 4 3 (by omega) (by omega)

/-- C7: Key/algorithm mismatch — an RSA-family JWK never converts to the
HMAC key type (the conversion fails with a key-conversion error), while a
symmetric JWK converts to exactly its secret bytes, untruncated. -/
theorem c7_key_mismatch (modulus expo secret : Bytes) (priv : Option Bytes) :
    hmacKeyFromJwk (.rsa modulus expo priv) = .error .unexpectedKeyType ∧
    hmacKeyFromJwk (.symmetric secret) = .ok secret :=
  ⟨rfl, rfl⟩

/-- C8: set_duration fills expiration with policy now plus the duration and
leaves the custom fields (and here also issued-at) unchanged. -/
theorem c8_set_duration {T : Type} (c : Claims T) (t : TimeOptions) (d : Int) :
    (c.setDuration t d).expiration = some (t.now + d) ∧
    (c.setDuration t d).custom = c.custom ∧
    ((c.setDuration t d).issuedAt = c.issuedAt ∨
      (c.setDuration t d).issuedAt = some t.now) :=
  ⟨rfl, rfl, Or.inl rfl⟩

/-- C9: Determinism — every exported entry point and every validator is a
pure function of its explicit inputs: two runs on identical inputs are equal,
and the validators depend on the time policy only through its now and leeway
fields. -/
theorem c9_determinism (s : Bytes) (jwk : JsonWebKey) (cl : SampleClaims)
    (alg pem : String) (now : Int) (pf : String → Option Bytes)
    (fk : Bytes → Option RSAPublicKey) (fkp : Bytes → Option RSAPrivateKey)
    (t t' : TimeOptions) (c : Claims SampleClaims)
    (hnow : t.now = t'.now) (hlee : t.leeway = t'.leeway) :
    verifyHashToken s jwk now = verifyHashToken s jwk now ∧
    createHashToken cl jwk alg now = createHashToken cl jwk alg now ∧
    verifyRsaToken pf fk pem s now = verifyRsaToken pf fk pem s now ∧
    createRsaToken pf fkp cl pem alg now = createRsaToken pf fkp cl pem alg now ∧
    verifyEdToken s jwk now = verifyEdToken s jwk now ∧
    createEdToken cl jwk now = createEdToken cl jwk now ∧
    validateExpiration t c = validateExpiration t' c ∧
    validateMaturity t c = validateMaturity t' c := by
  obtain ⟨l, n⟩ := t
  obtain ⟨l', n'⟩ := t'
  simp only [] at hnow hlee
  subst hnow
  subst hlee
  exact ⟨rfl, rfl, rfl, rfl, rfl, rfl, rfl, rfl⟩

/-- Witness for C9 at concrete inputs and equal policies. -/
theorem c9_determinism_witness :
    verifyHashToken [] (.symmetric []) 0 = verifyHashToken [] (.symmetric []) 0 ∧
    createHashToken ⟨"a", "b", false⟩ (.symmetric []) "HS256" 0
      = createHashToken ⟨"a", "b", false⟩ (.symmetric []) "HS256" 0 ∧
    verifyRsaToken (fun _ => none) (fun _ => none) "p" [] 0
      = verifyRsaToken (fun _ => none) (fun _ => none) "p" [] 0 ∧
    createRsaToken (fun _ => none) (fun _ => none) ⟨"a", "b", false⟩ "p" "RS256" 0
      = createRsaToken (fun _ => none) (fun _ => none) ⟨"a", "b", false⟩ "p" "RS256" 0 ∧
    verifyEdToken [] (.symmetric []) 0 = verifyEdToken [] (.symmetric []) 0 ∧
    createEdToken ⟨"a", "b", false⟩ (.symmetric []) 0
      = createEdToken ⟨"a", "b", false⟩ (.symmetric []) 0 ∧
    validateExpiration ⟨0, 7⟩
        (⟨⟨"a", "b", false⟩, some 7, none, none⟩ : Claims SampleClaims)
      = validateExpiration ⟨0, 7⟩ ⟨⟨"a", "b", false⟩, some 7, none, none⟩ ∧
    validateMaturity ⟨0, 7⟩
        (⟨⟨"a", "b", false⟩, some 7, none, none⟩ : Claims SampleClaims)
      = validateMaturity ⟨0, 7⟩ ⟨⟨"a", "b", false⟩, some 7, none, none⟩ :=
  c9_determinism [] (.symmetric []) ⟨"a", "b", false⟩ "HS256" "p" 0 (fun _ => none)
    (fun _ => none) (fun _ => none) ⟨0, 7⟩ ⟨0, 7⟩
    ⟨⟨"a", "b", false⟩, some 7, none, none⟩ rfl rfl

/-- C2 (amended): the core maturity check rejects, with `tokenNotYetValid`,
any claims whose not-before exceeds current time plus leeway; however the
exported verify entry points validate only expiration — their claims
extraction is insensitive to the not-before field — so they can return the
claims of a token whose not-before lies in the future. -/
theorem c2_not_before (t : TimeOptions) (hd : Header) (c : Claims SampleClaims)
    (nbf now : Int) (nb' : Option Int)
    (hnb : c.notBefore = some nbf) (hlt : t.now + t.leeway < nbf) :
    validateMaturity t c = .error .tokenNotYetValid ∧
    extractClaims ⟨hd, { c with notBefore := nb' }⟩ now
      = extractClaims ⟨hd, c⟩ now := by
  obtain ⟨cu, e, nb, ia⟩ := c
  simp only [] at hnb
  subst hnb
  constructor
  · rw [validateMaturity_some, if_neg (by omega)]
  · unfold extractClaims
    cases e with
    | none => rfl
    | some e0 =>
      simp only []
      rw [validateExpiration_some, validateExpiration_some]
      by_cases h : (TimeOptions.default now).now ≤ e0 + (TimeOptions.default now).leeway
      · rw [if_pos h, if_pos h]
        rfl
      · rw [if_neg h, if_neg h]

/-- Witness for the amended C2 at concrete values. -/
theorem c2_not_before_witness :
    validateMaturity ⟨60, 0⟩
        (⟨⟨"a", "b", false⟩, none, some 1000000, none⟩ : Claims SampleClaims)
      = .error .tokenNotYetValid ∧
    extractClaims ⟨⟨none⟩, ⟨⟨"a", "b", false⟩, none, some 7, none⟩⟩ 0
      = extractClaims ⟨⟨none⟩, ⟨⟨"a", "b", false⟩, none, some 1000000, none⟩⟩ 0 :=
  c2_not_before ⟨60, 0⟩ ⟨none⟩ ⟨⟨"a", "b", false⟩, none, some 1000000, none⟩
    1000000 0 (some 7) rfl
    (by rw [TimeOptions.mk_now, TimeOptions.mk_leeway]; omega)

/-- C2 counterexample: the exported verify entry point returns the claims of
a token whose not-before (1000000) lies strictly beyond current time plus
leeway (0 + 60) — the entry points never consult not-before. -/
theorem c2_counterexample :
    verifyHashToken
      (createToken (hsAlg .hs256) Header.default
        ⟨⟨"a", "b", false⟩, none, some 1000000, none⟩ [5])
      (.symmetric [5]) 0 = .ok ⟨"a", "b", false⟩ ∧
    payloadClaims
      (createToken (hsAlg .hs256) Header.default
        ⟨⟨"a", "b", false⟩, none, some 1000000, none⟩ [5])
      = some ⟨⟨"a", "b", false⟩, none, some 1000000, none⟩ ∧
    ((0 : Int) + 60 < 1000000) :=
  ⟨verifyHash_createToken .hs256 ⟨⟨"a", "b", false⟩, none, some 1000000, none⟩ [5] 0 rfl,
    payloadClaims_createToken (hsAlg .hs256) Header.default
      ⟨⟨"a", "b", false⟩, none, some 1000000, none⟩ [5] (hmacTag_ne_nil .hs256 [5] _),
    by omega⟩

/-- C3: Round trip — for every claims value, symmetric key, and supported
hash-family algorithm, the token produced by the exported create entry point
verifies through the exported verify entry point under the same key at any
time within the token lifetime, returning the original custom claims; the
reserved temporal fields set at creation are carried in the payload exactly. -/
theorem c3_round_trip (c : SampleClaims) (secret : Bytes) (alg : String)
    (now now' : Int) (s : Bytes)
    (halg : alg = "HS256" ∨ alg = "HS384" ∨ alg = "HS512")
    (htime : now' ≤ now + 3600)
    (hc : createHashToken c (.symmetric secret) alg now = .ok s) :
    verifyHashToken s (.symmetric secret) now' = .ok c ∧
      payloadClaims s = some ⟨c, some (now + 3600), none, none⟩ := by
  rcases halg with rfl | rfl | rfl
  · rw [show createHashToken c (.symmetric secret) "HS256" now
        = .ok (createToken (hsAlg .hs256) Header.default
          ((Claims.new c).setDuration (TimeOptions.default now) 3600) secret) from rfl] at hc
    injection hc with h
    subst h
    exact hash_create_verify .hs256 c secret now now' htime
  · rw [show createHashToken c (.symmetric secret) "HS384" now
        = .ok (createToken (hsAlg .hs384) Header.default
          ((Claims.new c).setDuration (TimeOptions.default now) 3600) secret) from rfl] at hc
    injection hc with h
    subst h
    exact hash_create_verify .hs384 c secret now now' htime
  · rw [show createHashToken c (.symmetric secret) "HS512" now
        = .ok (createToken (hsAlg .hs512) Header.default
          ((Claims.new c).setDuration (TimeOptions.default now) 3600) secret) from rfl] at hc
    injection hc with h
    subst h
    exact hash_create_verify .hs512 c secret now now' htime

/-- Witness for C3 at the concrete scenario claims and key. -/
theorem c3_round_trip_witness :
    verifyHashToken
        (createToken (hsAlg .hs256) Header.default
          ((Claims.new ⟨"u1", "Alice", false⟩).setDuration (TimeOptions.default 0) 3600) [7])
        (.symmetric [7]) 0 = .ok ⟨"u1", "Alice", false⟩ ∧
      payloadClaims
        (createToken (hsAlg .hs256) Header.default
          ((Claims.new ⟨"u1", "Alice", false⟩).setDuration (TimeOptions.default 0) 3600) [7])
        = some ⟨⟨"u1", "Alice", false⟩, some (0 + 3600), none, none⟩ :=
  c3_round_trip ⟨"u1", "Alice", false⟩ [7] "HS256" 0 0 _ (Or.inl rfl) (by omega) rfl

/-- C6: Tamper detection — altering any single byte of the signature segment
of an assembled token makes verification through the exported entry point
fail with `signatureMismatch`; it never succeeds. -/
theorem c6_tamper (a : HsAlg) (c : Claims SampleClaims) (secret : Bytes)
    (now : Int) (hb pb sig : Bytes) (i vb : Nat)
    (hhb : hb = serializeHeader (hsAlg a).name Header.default)
    (hpb : pb = serializeClaims c)
    (hsg : sig = hmacTag a secret (hb ++ pb))
    (hi : i < sig.length)
    (hne : vb ≠ sig.get ⟨i, hi⟩) :
    verifyHashToken (assemble hb pb (sig.set i vb)) (.symmetric secret) now
      = .err (.token .signatureMismatch) := by
  subst hhb
  subst hpb
  subst hsg
  have hset := set_ne _ i vb hi hne
  have hnn : (hmacTag a secret (serializeHeader (hsAlg a).name Header.default ++
      serializeClaims c)).set i vb ≠ [] := by
    intro h
    have hlen := congrArg List.length h
    simp only [List.length_set, List.length_nil] at hlen
    omega
  have hp := parse_assemble (serializeHeader (hsAlg a).name Header.default)
    (serializeClaims c) _ (hsAlg a).name Header.default (serializeHeader_ne_nil _ _)
    (serializeClaims_ne_nil _) hnn (decodeHeader_encode _ _)
  have hmis := validateIntegrity_mismatch (hsAlg a)
    ⟨serializeHeader (hsAlg a).name Header.default, (hsAlg a).name, Header.default,
      serializeClaims c,
      (hmacTag a secret (serializeHeader (hsAlg a).name Header.default ++
        serializeClaims c)).set i vb⟩ secret rfl hset
  unfold verifyHashToken
  rw [hp]
  cases a <;>
    simp only [hsAlg, HsAlg.name] at hmis ⊢ <;>
    simp [doVerifyToken, hmacKeyFromJwk, hmis]

/-- Witness for C6 at a concrete token with signature byte 0 flipped. -/
theorem c6_tamper_witness :
    verifyHashToken
        (assemble (serializeHeader (hsAlg .hs256).name Header.default)
          (serializeClaims ⟨⟨"a", "b", false⟩, none, none, none⟩)
          ((hmacTag .hs256 [5]
              (serializeHeader (hsAlg .hs256).name Header.default ++
                serializeClaims ⟨⟨"a", "b", false⟩, none, none, none⟩)).set 0 99))
        (.symmetric [5]) 0
      = .err (.token .signatureMismatch) :=
  c6_tamper .hs256 ⟨⟨"a", "b", false⟩, none, none, none⟩ [5] 0 _ _ _ 0 99 rfl rfl rfl
    (by decide) (by decide)

/-- C10: Every exported create entry point unconditionally gives the token an
expiration of the current time of the default policy plus exactly one hour (3600
seconds), regardless of the caller supplied claims; not-before and issued-at stay
unset, so callers cannot choose a different lifetime through this interface. -/
theorem c10_fixed_lifetime (cl : SampleClaims) (jwk : JsonWebKey)
    (alg pem : String) (now : Int) (s1 s2 s3 : Bytes)
    (pf : String → Option Bytes) (fkp : Bytes → Option RSAPrivateKey) :
    (createHashToken cl jwk alg now = .ok s1 →
      payloadClaims s1 = some ⟨cl, some (now + 3600), none, none⟩) ∧
    (createRsaToken pf fkp cl pem alg now = .ok s2 →
      payloadClaims s2 = some ⟨cl, some (now + 3600), none, none⟩) ∧
    (createEdToken cl jwk now = .ok s3 →
      payloadClaims s3 = some ⟨cl, some (now + 3600), none, none⟩) := by
  have key : ∀ (a : HsAlg), doCreateToken (hsAlg a) hmacKeyFromJwk cl jwk now = .ok s1 →
      payloadClaims s1 = some ⟨cl, some (now + 3600), none, none⟩ := by
    intro a ha
    unfold doCreateToken at ha
    rcases hk : hmacKeyFromJwk jwk with e | k
    · rw [hk] at ha
      exact absurd ha (by simp)
    · rw [hk] at ha
      simp at ha
      subst ha
      rw [payloadClaims_createToken (hsAlg a) Header.default _ k (hmacTag_ne_nil a k _)]
      rfl
  refine ⟨?_, ?_, ?_⟩
  · intro h
    unfold createHashToken at h
    by_cases e1 : alg = "HS256"
    · rw [if_pos e1] at h
      exact key .hs256 h
    by_cases e2 : alg = "HS384"
    · rw [if_neg e1, if_pos e2] at h
      exact key .hs384 h
    by_cases e3 : alg = "HS512"
    · rw [if_neg e1, if_neg e2, if_pos e3] at h
      exact key .hs512 h
    · rw [if_neg e1, if_neg e2, if_neg e3] at h
      exact absurd h (by simp)
  · intro h
    unfold createRsaToken at h
    split at h
    · simp at h
    split at h
    · simp at h
    split at h
    · simp at h
    simp at h
    subst h
    rw [payloadClaims_createToken _ _ _ _ (by simp [rsaAlg, rsaTag])]
    rfl
  · intro h
    unfold createEdToken doCreateToken at h
    rcases hk : edSigningKeyFromJwk jwk with e | k
    · rw [hk] at h
      exact absurd h (by simp)
    rw [hk] at h
    simp at h
    subst h
    rw [payloadClaims_createToken edAlg Header.default _ k (edTag_ne_nil k.x _)]
    rfl

/-- Witness for C10: the three create entry points at concrete inputs. -/
theorem c10_fixed_lifetime_witness :
    payloadClaims (createToken (hsAlg .hs256) Header.default
        ((Claims.new ⟨"a", "b", false⟩).setDuration (TimeOptions.default 0) 3600) [5])
      = some ⟨⟨"a", "b", false⟩, some (0 + 3600), none, none⟩ ∧
    payloadClaims (createToken (rsaAlg .rs256) Header.default
        ((Claims.new ⟨"a", "b", false⟩).setDuration (TimeOptions.default 0) 3600) ⟨⟨[4]⟩⟩)
      = some ⟨⟨"a", "b", false⟩, some (0 + 3600), none, none⟩ ∧
    payloadClaims (createToken edAlg Header.default
        ((Claims.new ⟨"a", "b", false⟩).setDuration (TimeOptions.default 0) 3600) ⟨[3], [2]⟩)
      = some ⟨⟨"a", "b", false⟩, some (0 + 3600), none, none⟩ :=
  ⟨(c10_fixed_lifetime ⟨"a", "b", false⟩ (.symmetric [5]) "HS256" "p" 0 _ [] []
      (fun _ => some [1]) (fun _ => some ⟨⟨[4]⟩⟩)).1 rfl,
    (c10_fixed_lifetime ⟨"a", "b", false⟩ (.symmetric [5]) "RS256" "p" 0 [] _ []
      (fun _ => some [1]) (fun _ => some ⟨⟨[4]⟩⟩)).2.1 rfl,
    (c10_fixed_lifetime ⟨"a", "b", false⟩ (.okp [2] (some [3])) "HS256" "p" 0 [] [] _
      (fun _ => some [1]) (fun _ => some ⟨⟨[4]⟩⟩)).2.2 rfl⟩

/-- C1: Algorithm gating — the untrusted algorithm name never expands the set
of algorithms a call site accepts: verify_hash_token errors whenever the
claimed name is not exactly HS256, HS384 or HS512; a success of
verify_hash_token implies the claimed name is one of those three; and a
success of verify_rsa_token implies the claimed name is one of the six RSA
variant names, so it never verifies under a non-RSA algorithm. -/
theorem c1_algorithm_gating (s : Bytes) (jwk : JsonWebKey) (now : Int)
    (v w : SampleClaims) (pf : String → Option Bytes)
    (fk : Bytes → Option RSAPublicKey) (pem : String) :
    (claimedAlg s ≠ some "HS256" → claimedAlg s ≠ some "HS384" →
      claimedAlg s ≠ some "HS512" → (verifyHashToken s jwk now).isErr = true) ∧
    (verifyHashToken s jwk now = .ok v →
      claimedAlg s = some "HS256" ∨ claimedAlg s = some "HS384" ∨
        claimedAlg s = some "HS512") ∧
    (verifyRsaToken pf fk pem s now = .ok w →
      claimedAlg s = some "RS256" ∨ claimedAlg s = some "RS384" ∨
        claimedAlg s = some "RS512" ∨ claimedAlg s = some "PS256" ∨
        claimedAlg s = some "PS384" ∨ claimedAlg s = some "PS512") := by
  refine ⟨?_, ?_, ?_⟩
  · intro h1 h2 h3
    rcases hparse : UntrustedToken.new s with e | tok
    · simp [verifyHashToken, hparse, JsOutcome.isErr]
    · have hca := claimedAlg_ok s tok hparse
      rw [hca] at h1 h2 h3
      have h1' : tok.algName ≠ "HS256" := fun hh => h1 (by rw [hh])
      have h2' : tok.algName ≠ "HS384" := fun hh => h2 (by rw [hh])
      have h3' : tok.algName ≠ "HS512" := fun hh => h3 (by rw [hh])
      simp [verifyHashToken, hparse, h1', h2', h3', JsOutcome.isErr]
  · intro hok
    rcases hparse : UntrustedToken.new s with e | tok
    · simp [verifyHashToken, hparse] at hok
    · have hca := claimedAlg_ok s tok hparse
      by_cases e1 : tok.algName = "HS256"
      · exact Or.inl (by rw [hca, e1])
      by_cases e2 : tok.algName = "HS384"
      · exact Or.inr (Or.inl (by rw [hca, e2]))
      by_cases e3 : tok.algName = "HS512"
      · exact Or.inr (Or.inr (by rw [hca, e3]))
      · simp [verifyHashToken, hparse, e1, e2, e3] at hok
  · intro hok
    rcases hpem : pf pem with _ | contents
    · simp [verifyRsaToken, hpem] at hok
    rcases hfk : fk contents with _ | key
    · simp [verifyRsaToken, hpem, hfk] at hok
    rcases hparse : UntrustedToken.new s with e | tok
    · simp [verifyRsaToken, hpem, hfk, hparse] at hok
    have hca := claimedAlg_ok s tok hparse
    rcases hw : Rsa.withName tok.algName with _ | a
    · simp [verifyRsaToken, hpem, hfk, hparse, hw] at hok
    · rw [hca]
      unfold Rsa.withName at hw
      split_ifs at hw with g1 g2 g3 g4 g5 g6
      · exact Or.inl (by rw [g1])
      · exact Or.inr (Or.inl (by rw [g2]))
      · exact Or.inr (Or.inr (Or.inl (by rw [g3])))
      · exact Or.inr (Or.inr (Or.inr (Or.inl (by rw [g4]))))
      · exact Or.inr (Or.inr (Or.inr (Or.inr (Or.inl (by rw [g5])))))
      · exact Or.inr (Or.inr (Or.inr (Or.inr (Or.inr (by rw [g6])))))

/-- Witness for C1: a malformed token makes verify_hash_token error, and
concrete verifying tokens instantiate both success implications. -/
theorem c1_algorithm_gating_witness :
    (verifyHashToken [50] (.symmetric []) 0).isErr = true ∧
    (claimedAlg (createToken (hsAlg .hs256) Header.default
        ⟨⟨"a", "b", false⟩, none, none, none⟩ [5]) = some "HS256" ∨
      claimedAlg (createToken (hsAlg .hs256) Header.default
        ⟨⟨"a", "b", false⟩, none, none, none⟩ [5]) = some "HS384" ∨
      claimedAlg (createToken (hsAlg .hs256) Header.default
        ⟨⟨"a", "b", false⟩, none, none, none⟩ [5]) = some "HS512") ∧
    (claimedAlg (createToken (rsaAlg .rs256) Header.default
        ⟨⟨"a", "b", false⟩, none, none, none⟩ ⟨⟨[4]⟩⟩) = some "RS256" ∨
      claimedAlg (createToken (rsaAlg .rs256) Header.default
        ⟨⟨"a", "b", false⟩, none, none, none⟩ ⟨⟨[4]⟩⟩) = some "RS384" ∨
      claimedAlg (createToken (rsaAlg .rs256) Header.default
        ⟨⟨"a", "b", false⟩, none, none, none⟩ ⟨⟨[4]⟩⟩) = some "RS512" ∨
      claimedAlg (createToken (rsaAlg .rs256) Header.default
        ⟨⟨"a", "b", false⟩, none, none, none⟩ ⟨⟨[4]⟩⟩) = some "PS256" ∨
      claimedAlg (createToken (rsaAlg .rs256) Header.default
        ⟨⟨"a", "b", false⟩, none, none, none⟩ ⟨⟨[4]⟩⟩) = some "PS384" ∨
      claimedAlg (createToken (rsaAlg .rs256) Header.default
        ⟨⟨"a", "b", false⟩, none, none, none⟩ ⟨⟨[4]⟩⟩) = some "PS512") :=
  ⟨(c1_algorithm_gating [50] (.symmetric []) 0 ⟨"a", "b", false⟩ ⟨"a", "b", false⟩
      (fun _ => none) (fun _ => none) "p").1 (by decide) (by decide) (by decide),
    (c1_algorithm_gating (createToken (hsAlg .hs256) Header.default
        ⟨⟨"a", "b", false⟩, none, none, none⟩ [5]) (.symmetric [5]) 0
      ⟨"a", "b", false⟩ ⟨"a", "b", false⟩ (fun _ => none) (fun _ => none)
      "p").2.1 (by decide),
    (c1_algorithm_gating (createToken (rsaAlg .rs256) Header.default
        ⟨⟨"a", "b", false⟩, none, none, none⟩ ⟨⟨[4]⟩⟩) (.symmetric []) 0
      ⟨"a", "b", false⟩ ⟨"a", "b", false⟩ (fun _ => some [4])
      (fun bs => some ⟨bs⟩) "p").2.2 (by decide)⟩

/-- C4 (amended): every exported entry point terminates with a success value
or a typed error, and no error is downgraded into a default or success value:
each internal failure — structural parse, key conversion, PEM or PKCS#8
decode, integrity, expiration — is returned to the immediate caller as
exactly the corresponding typed error, the entry points dispatch to the
shared pipelines unchanged, and a success outcome occurs exactly when every
stage succeeded, returning the validated claims with no substitution.  The
single exception: the two RSA entry points reach a panic (the modelled
`Rsa::with_name` has no error return) precisely when the requested or
token-claimed algorithm name is not an RSA variant name; the hash and
Ed25519 entry points never reach a panic, since serializing the plain claims
record cannot fail. -/
theorem c4_totality {SK VK SK2 VK2 : Type} (A : AlgSpec SK VK)
    (kf : JsonWebKey → Except JwkError VK) (A2 : AlgSpec SK2 VK2)
    (kf2 : JsonWebKey → Except JwkError SK2) (s : Bytes) (jwk : JsonWebKey)
    (cl : SampleClaims) (alg pem : String) (now : Int)
    (pf : String → Option Bytes) (fk : Bytes → Option RSAPublicKey)
    (fkp : Bytes → Option RSAPrivateKey) (tok : UntrustedToken) (a : HsAlg)
    (e : TokenError) (je : JwkError) (vk : VK) (sk : SK2) (t : Token)
    (c : SampleClaims) (cont : Bytes) (rk : RSAPublicKey) (pk : RSAPrivateKey)
    (ra : RsaAlg) :
    (verifyHashToken s jwk now).isPanic = false ∧
    (createHashToken cl jwk alg now).isPanic = false ∧
    (verifyEdToken s jwk now).isPanic = false ∧
    (createEdToken cl jwk now).isPanic = false ∧
    ((createRsaToken pf fkp cl pem alg now).isPanic = true →
      Rsa.withName alg = none) ∧
    ((verifyRsaToken pf fk pem s now).isPanic = true →
      Option.elim (claimedAlg s) False (fun n => Rsa.withName n = none)) ∧
    (UntrustedToken.new s = .error e →
      verifyHashToken s jwk now = .err (.token e)) ∧
    (UntrustedToken.new s = .error e →
      verifyEdToken s jwk now = .err (.token e)) ∧
    (UntrustedToken.new s = .ok tok → tok.algName = a.name →
      verifyHashToken s jwk now = doVerifyToken (hsAlg a) hmacKeyFromJwk tok jwk now) ∧
    (UntrustedToken.new s = .ok tok →
      verifyEdToken s jwk now = doVerifyToken edAlg edVerifyingKeyFromJwk tok jwk now) ∧
    (alg = a.name →
      createHashToken cl jwk alg now = doCreateToken (hsAlg a) hmacKeyFromJwk cl jwk now) ∧
    (createEdToken cl jwk now = doCreateToken edAlg edSigningKeyFromJwk cl jwk now) ∧
    (kf jwk = .error je → doVerifyToken A kf tok jwk now = .err (.jwk je)) ∧
    (kf jwk = .ok vk → validateIntegrity A tok vk = .error e →
      doVerifyToken A kf tok jwk now = .err (.token e)) ∧
    (kf jwk = .ok vk → validateIntegrity A tok vk = .ok t →
      extractClaims t now = .error e →
      doVerifyToken A kf tok jwk now = .err (.token e)) ∧
    (kf jwk = .ok vk → validateIntegrity A tok vk = .ok t →
      extractClaims t now = .ok c → doVerifyToken A kf tok jwk now = .ok c) ∧
    (doVerifyToken A kf tok jwk now = .ok c →
      ∃ vk0 t0, kf jwk = .ok vk0 ∧ validateIntegrity A tok vk0 = .ok t0 ∧
        extractClaims t0 now = .ok c) ∧
    (kf2 jwk = .error je → doCreateToken A2 kf2 cl jwk now = .err (.jwk je)) ∧
    (kf2 jwk = .ok sk → doCreateToken A2 kf2 cl jwk now
      = .ok (createToken A2 Header.default
        ((Claims.new cl).setDuration (TimeOptions.default now) 3600) sk)) ∧
    (verifyHashToken s jwk now = .ok c →
      ∃ tok0 a0 vk0 t0, UntrustedToken.new s = .ok tok0 ∧
        tok0.algName = HsAlg.name a0 ∧ hmacKeyFromJwk jwk = .ok vk0 ∧
        validateIntegrity (hsAlg a0) tok0 vk0 = .ok t0 ∧
        extractClaims t0 now = .ok c) ∧
    (pf pem = none → verifyRsaToken pf fk pem s now = .err .pemError) ∧
    (pf pem = some cont → fk cont = none →
      verifyRsaToken pf fk pem s now = .err .keyDecodeError) ∧
    (pf pem = some cont → fk cont = some rk → UntrustedToken.new s = .error e →
      verifyRsaToken pf fk pem s now = .err (.token e)) ∧
    (pf pem = some cont → fk cont = some rk → UntrustedToken.new s = .ok tok →
      Rsa.withName tok.algName = some ra →
      validateIntegrity (rsaAlg ra) tok rk = .error e →
      verifyRsaToken pf fk pem s now = .err (.token e)) ∧
    (pf pem = some cont → fk cont = some rk → UntrustedToken.new s = .ok tok →
      Rsa.withName tok.algName = some ra →
      validateIntegrity (rsaAlg ra) tok rk = .ok t →
      extractClaims t now = .error e →
      verifyRsaToken pf fk pem s now = .err (.token e)) ∧
    (pf pem = some cont → fk cont = some rk → UntrustedToken.new s = .ok tok →
      Rsa.withName tok.algName = some ra →
      validateIntegrity (rsaAlg ra) tok rk = .ok t →
      extractClaims t now = .ok c → verifyRsaToken pf fk pem s now = .ok c) ∧
    (verifyRsaToken pf fk pem s now = .ok c →
      ∃ cont0 rk0 tok0 ra0 t0, pf pem = some cont0 ∧ fk cont0 = some rk0 ∧
        UntrustedToken.new s = .ok tok0 ∧ Rsa.withName tok0.algName = some ra0 ∧
        validateIntegrity (rsaAlg ra0) tok0 rk0 = .ok t0 ∧
        extractClaims t0 now = .ok c) ∧
    (pf pem = none → createRsaToken pf fkp cl pem alg now = .err .pemError) ∧
    (pf pem = some cont → fkp cont = none →
      createRsaToken pf fkp cl pem alg now = .err .keyDecodeError) ∧
    (pf pem = some cont → fkp cont = some pk → Rsa.withName alg = some ra →
      createRsaToken pf fkp cl pem alg now = .ok (createToken (rsaAlg ra)
        Header.default ((Claims.new cl).setDuration (TimeOptions.default now) 3600)
        pk)) := by
  refine ⟨?_, ?_, ?_, ?_, ?_, ?_, ?_, ?_, ?_, ?_, ?_, ?_, ?_, ?_, ?_, ?_, ?_, ?_,
    ?_, ?_, ?_, ?_, ?_, ?_, ?_, ?_, ?_, ?_, ?_, ?_⟩
  · rcases hparse : UntrustedToken.new s with e | tok
    · simp [verifyHashToken, hparse, JsOutcome.isPanic]
    · by_cases e1 : tok.algName = "HS256"
      · simp [verifyHashToken, hparse, e1, doVerifyToken_no_panic]
      by_cases e2 : tok.algName = "HS384"
      · simp [verifyHashToken, hparse, e1, e2, doVerifyToken_no_panic]
      by_cases e3 : tok.algName = "HS512"
      · simp [verifyHashToken, hparse, e1, e2, e3, doVerifyToken_no_panic]
      · simp [verifyHashToken, hparse, e1, e2, e3, JsOutcome.isPanic]
  · by_cases e1 : alg = "HS256"
    · simp [createHashToken, e1, doCreateToken_no_panic]
    by_cases e2 : alg = "HS384"
    · simp [createHashToken, e1, e2, doCreateToken_no_panic]
    by_cases e3 : alg = "HS512"
    · simp [createHashToken, e1, e2, e3, doCreateToken_no_panic]
    · simp [createHashToken, e1, e2, e3, JsOutcome.isPanic]
  · rcases hparse : UntrustedToken.new s with e | tok
    · simp [verifyEdToken, hparse, JsOutcome.isPanic]
    · simp [verifyEdToken, hparse, doVerifyToken_no_panic]
  · simp [createEdToken, doCreateToken_no_panic]
  · intro hp
    rcases hpem : pf pem with _ | contents
    · simp [createRsaToken, hpem, JsOutcome.isPanic] at hp
    rcases hfk : fkp contents with _ | k
    · simp [createRsaToken, hpem, hfk, JsOutcome.isPanic] at hp
    rcases hw : Rsa.withName alg with _ | a
    · rfl
    · simp [createRsaToken, hpem, hfk, hw, JsOutcome.isPanic] at hp
  · intro hp
    rcases hpem : pf pem with _ | contents
    · simp [verifyRsaToken, hpem, JsOutcome.isPanic] at hp
    rcases hfk : fk contents with _ | key
    · simp [verifyRsaToken, hpem, hfk, JsOutcome.isPanic] at hp
    rcases hparse : UntrustedToken.new s with e | tok
    · simp [verifyRsaToken, hpem, hfk, hparse, JsOutcome.isPanic] at hp
    have hca := claimedAlg_ok s tok hparse
    rw [hca]
    rcases hw : Rsa.withName tok.algName with _ | a
    · exact hw
    rcases hv : validateIntegrity (rsaAlg a) tok key with e2 | t
    · simp [verifyRsaToken, hpem, hfk, hparse, hw, hv, JsOutcome.isPanic] at hp
    rcases hx : extractClaims t now with e3 | c
    · simp [verifyRsaToken, hpem, hfk, hparse, hw, hv, hx, JsOutcome.isPanic] at hp
    · simp [verifyRsaToken, hpem, hfk, hparse, hw, hv, hx, fromSerde,
        JsOutcome.isPanic] at hp
  · intro h
    simp [verifyHashToken, h]
  · intro h
    simp [verifyEdToken, h]
  · intro hp ha
    cases a <;> simp [verifyHashToken, hp, ha, HsAlg.name]
  · intro hp
    simp [verifyEdToken, hp]
  · intro ha
    cases a <;> simp [createHashToken, ha, HsAlg.name]
  · rfl
  · intro h
    simp [doVerifyToken, h]
  · intro h1 h2
    simp [doVerifyToken, h1, h2]
  · intro h1 h2 h3
    simp [doVerifyToken, h1, h2, h3]
  · intro h1 h2 h3
    simp [doVerifyToken, h1, h2, h3, fromSerde]
  · exact fun h => doVerifyToken_ok A kf tok jwk now c h
  · intro h
    simp [doCreateToken, h]
  · intro h
    simp [doCreateToken, h]
  · intro h
    rcases hparse : UntrustedToken.new s with e0 | tok0
    · simp [verifyHashToken, hparse] at h
    · by_cases e1 : tok0.algName = "HS256"
      · simp only [verifyHashToken, hparse, e1, if_pos] at h
        obtain ⟨vk0, t0, hk, hv, hx⟩ := doVerifyToken_ok _ _ _ _ _ _ h
        exact ⟨tok0, .hs256, vk0, t0, rfl, e1, hk, hv, hx⟩
      by_cases e2 : tok0.algName = "HS384"
      · simp only [verifyHashToken, hparse] at h
        rw [if_neg e1, if_pos e2] at h
        obtain ⟨vk0, t0, hk, hv, hx⟩ := doVerifyToken_ok _ _ _ _ _ _ h
        exact ⟨tok0, .hs384, vk0, t0, rfl, e2, hk, hv, hx⟩
      by_cases e3 : tok0.algName = "HS512"
      · simp only [verifyHashToken, hparse] at h
        rw [if_neg e1, if_neg e2, if_pos e3] at h
        obtain ⟨vk0, t0, hk, hv, hx⟩ := doVerifyToken_ok _ _ _ _ _ _ h
        exact ⟨tok0, .hs512, vk0, t0, rfl, e3, hk, hv, hx⟩
      · simp [verifyHashToken, hparse, e1, e2, e3] at h
  · intro h
    simp [verifyRsaToken, h]
  · intro h1 h2
    simp [verifyRsaToken, h1, h2]
  · intro h1 h2 h3
    simp [verifyRsaToken, h1, h2, h3]
  · intro h1 h2 h3 h4 h5
    simp [verifyRsaToken, h1, h2, h3, h4, h5]
  · intro h1 h2 h3 h4 h5 h6
    simp [verifyRsaToken, h1, h2, h3, h4, h5, h6]
  · intro h1 h2 h3 h4 h5 h6
    simp [verifyRsaToken, h1, h2, h3, h4, h5, h6, fromSerde]
  · intro h
    rcases hpem : pf pem with _ | cont0
    · simp [verifyRsaToken, hpem] at h
    rcases hfk : fk cont0 with _ | rk0
    · simp [verifyRsaToken, hpem, hfk] at h
    rcases hparse : UntrustedToken.new s with e0 | tok0
    · simp [verifyRsaToken, hpem, hfk, hparse] at h
    rcases hw : Rsa.withName tok0.algName with _ | ra0
    · simp [verifyRsaToken, hpem, hfk, hparse, hw] at h
    rcases hv : validateIntegrity (rsaAlg ra0) tok0 rk0 with e0 | t0
    · simp [verifyRsaToken, hpem, hfk, hparse, hw, hv] at h
    rcases hx : extractClaims t0 now with e0 | c0
    · simp [verifyRsaToken, hpem, hfk, hparse, hw, hv, hx] at h
    · simp [verifyRsaToken, hpem, hfk, hparse, hw, hv, hx, fromSerde] at h
      subst h
      exact ⟨cont0, rk0, tok0, ra0, t0, rfl, hfk, rfl, hw, hv, hx⟩
  · intro h
    simp [createRsaToken, h]
  · intro h1 h2
    simp [createRsaToken, h1, h2]
  · intro h1 h2 h3
    simp [createRsaToken, h1, h2, h3]

/-- Witness for C4 (amended): both RSA panic carve-outs, a propagated parse
failure, a propagated key-conversion failure, a propagated expiration
failure, a no-substitution success of the verification pipeline, and a
create success, all at concrete inputs. -/
theorem c4_totality_witness :
    Rsa.withName "FOO" = none ∧
    Option.elim (claimedAlg (createToken (hsAlg .hs256) Header.default
        ⟨⟨"a", "b", false⟩, none, none, none⟩ [5])) False
      (fun n => Rsa.withName n = none) ∧
    verifyHashToken [50] (.symmetric []) 0 = .err (.token .malformedToken) ∧
    doVerifyToken (hsAlg .hs256) hmacKeyFromJwk ⟨[1], "HS256", ⟨none⟩, [1], [1]⟩
      (.rsa [1] [2] none) 0 = .err (.jwk .unexpectedKeyType) ∧
    doVerifyToken (hsAlg .hs256) hmacKeyFromJwk
      ⟨serializeHeader "HS256" ⟨none⟩, "HS256", ⟨none⟩,
        serializeClaims ⟨⟨"a", "b", false⟩, some (-100), none, none⟩,
        hmacTag .hs256 [5] (serializeHeader "HS256" ⟨none⟩ ++
          serializeClaims ⟨⟨"a", "b", false⟩, some (-100), none, none⟩)⟩
      (.symmetric [5]) 0 = .err (.token .tokenExpired) ∧
    doVerifyToken (hsAlg .hs256) hmacKeyFromJwk
      ⟨serializeHeader "HS256" ⟨none⟩, "HS256", ⟨none⟩,
        serializeClaims ⟨⟨"a", "b", false⟩, none, none, none⟩,
        hmacTag .hs256 [5] (serializeHeader "HS256" ⟨none⟩ ++
          serializeClaims ⟨⟨"a", "b", false⟩, none, none, none⟩)⟩
      (.symmetric [5]) 0 = .ok ⟨"a", "b", false⟩ ∧
    createRsaToken (fun _ => some [1]) (fun _ => some ⟨⟨[4]⟩⟩) ⟨"a", "b", false⟩
      "p" "RS256" 0 = .ok (createToken (rsaAlg .rs256) Header.default
        ((Claims.new ⟨"a", "b", false⟩).setDuration (TimeOptions.default 0) 3600)
        ⟨⟨[4]⟩⟩) := by
  obtain ⟨-, -, -, -, hP5, -, hD1, -⟩ := c4_totality (hsAlg .hs256) hmacKeyFromJwk
    (hsAlg .hs256) hmacKeyFromJwk [50] (.symmetric []) ⟨"a", "b", false⟩ "FOO" "p" 0
    (fun _ => some [1]) (fun _ => none) (fun _ => some ⟨⟨[4]⟩⟩)
    ⟨[1], "HS256", ⟨none⟩, [1], [1]⟩ .hs256 .malformedToken .unexpectedKeyType [] []
    ⟨⟨none⟩, ⟨⟨"a", "b", false⟩, none, none, none⟩⟩ ⟨"a", "b", false⟩ [1] ⟨[1]⟩
    ⟨⟨[4]⟩⟩ .rs256
  obtain ⟨-, -, -, -, -, hP6, -⟩ := c4_totality (hsAlg .hs256) hmacKeyFromJwk
    (hsAlg .hs256) hmacKeyFromJwk (createToken (hsAlg .hs256) Header.default
      ⟨⟨"a", "b", false⟩, none, none, none⟩ [5]) (.symmetric [])
    ⟨"a", "b", false⟩ "RS256" "p" 0 (fun _ => some [1]) (fun _ => some ⟨[4]⟩)
    (fun _ => none) ⟨[1], "HS256", ⟨none⟩, [1], [1]⟩ .hs256 .malformedToken
    .unexpectedKeyType [] [] ⟨⟨none⟩, ⟨⟨"a", "b", false⟩, none, none, none⟩⟩
    ⟨"a", "b", false⟩ [1] ⟨[1]⟩ ⟨⟨[4]⟩⟩ .rs256
  obtain ⟨-, -, -, -, -, -, -, -, -, -, -, -, hV1, -⟩ := c4_totality (hsAlg .hs256)
    hmacKeyFromJwk (hsAlg .hs256) hmacKeyFromJwk [50] (.rsa [1] [2] none)
    ⟨"a", "b", false⟩ "FOO" "p" 0 (fun _ => some [1]) (fun _ => none)
    (fun _ => some ⟨⟨[4]⟩⟩) ⟨[1], "HS256", ⟨none⟩, [1], [1]⟩ .hs256 .malformedToken
    .unexpectedKeyType [] [] ⟨⟨none⟩, ⟨⟨"a", "b", false⟩, none, none, none⟩⟩
    ⟨"a", "b", false⟩ [1] ⟨[1]⟩ ⟨⟨[4]⟩⟩ .rs256
  obtain ⟨-, -, -, -, -, -, -, -, -, -, -, -, -, -, hV3, -⟩ := c4_totality
    (hsAlg .hs256) hmacKeyFromJwk (hsAlg .hs256) hmacKeyFromJwk [50]
    (.symmetric [5]) ⟨"a", "b", false⟩ "FOO" "p" 0 (fun _ => some [1])
    (fun _ => none) (fun _ => some ⟨⟨[4]⟩⟩)
    ⟨serializeHeader "HS256" ⟨none⟩, "HS256", ⟨none⟩,
      serializeClaims ⟨⟨"a", "b", false⟩, some (-100), none, none⟩,
      hmacTag .hs256 [5] (serializeHeader "HS256" ⟨none⟩ ++
        serializeClaims ⟨⟨"a", "b", false⟩, some (-100), none, none⟩)⟩
    .hs256 .tokenExpired .unexpectedKeyType [5] []
    ⟨⟨none⟩, ⟨⟨"a", "b", false⟩, some (-100), none, none⟩⟩ ⟨"a", "b", false⟩ [1]
    ⟨[1]⟩ ⟨⟨[4]⟩⟩ .rs256
  obtain ⟨-, -, -, -, -, -, -, -, -, -, -, -, -, -, -, hV4, -⟩ := c4_totality
    (hsAlg .hs256) hmacKeyFromJwk (hsAlg .hs256) hmacKeyFromJwk [50]
    (.symmetric [5]) ⟨"a", "b", false⟩ "FOO" "p" 0 (fun _ => some [1])
    (fun _ => none) (fun _ => some ⟨⟨[4]⟩⟩)
    ⟨serializeHeader "HS256" ⟨none⟩, "HS256", ⟨none⟩,
      serializeClaims ⟨⟨"a", "b", false⟩, none, none, none⟩,
      hmacTag .hs256 [5] (serializeHeader "HS256" ⟨none⟩ ++
        serializeClaims ⟨⟨"a", "b", false⟩, none, none, none⟩)⟩
    .hs256 .malformedToken .unexpectedKeyType [5] []
    ⟨⟨none⟩, ⟨⟨"a", "b", false⟩, none, none, none⟩⟩ ⟨"a", "b", false⟩ [1] ⟨[1]⟩
    ⟨⟨[4]⟩⟩ .rs256
  obtain ⟨-, -, -, -, -, -, -, -, -, -, -, -, -, -, -, -, -, -, -, -, -, -, -, -,
    -, -, -, -, -, hS3⟩ := c4_totality (hsAlg .hs256) hmacKeyFromJwk
    (hsAlg .hs256) hmacKeyFromJwk [50] (.symmetric []) ⟨"a", "b", false⟩ "RS256"
    "p" 0 (fun _ => some [1]) (fun _ => none) (fun _ => some ⟨⟨[4]⟩⟩)
    ⟨[1], "HS256", ⟨none⟩, [1], [1]⟩ .hs256 .malformedToken .unexpectedKeyType []
    [] ⟨⟨none⟩, ⟨⟨"a", "b", false⟩, none, none, none⟩⟩ ⟨"a", "b", false⟩ [1] ⟨[1]⟩
    ⟨⟨[4]⟩⟩ .rs256
  exact ⟨hP5 (by decide), hP6 (by decide), hD1 (by decide), hV1 rfl,
    hV3 rfl (by decide) (by decide), hV4 rfl (by decide) (by decide),
    hS3 rfl rfl (by decide)⟩

/-- C4 counterexample: create_rsa_token invoked with algorithm name FOO and
collaborators that succeed reaches the panic site instead of returning a
typed error value. -/
theorem c4_counterexample :
    createRsaToken (fun _ => some [1]) (fun b => some ⟨⟨b⟩⟩) ⟨"a", "b", false⟩
      "pem" "FOO" 0 = .panicked "Invalid algorithm name" := by decide

end JwtC
